import Mathlib

/-!
Shallow embedding of `src/watch_warnings.py` (the LVGMC warning bot core:
feed normalization, marine suppression, change detection, history dedup,
notification routing and state persistence), together with theorems
settling the specification claims about it.

Machine conventions used throughout:
* Python's parsed JSON values are modelled by the inductive `WW.Json`;
  an object is a key-value list (a parsed `dict` has unique keys, and
  `dict` update keeps the position of an existing key).
* Python `str` is `String`; `str.strip()`, `.lower()`, `.upper()` are
  modelled for ASCII plus the Latvian diacritic letters that occur in
  the data (`pyStrip`, `pyLower`, `pyUpper`).
* `json.dumps(d, ensure_ascii=False, sort_keys=True)` over the fixed
  eight-key string dict built by `fingerprint` is injective in the
  values, so a fingerprint is modelled by the sorted key-value list
  itself (`Fp`) rather than by its serialized text.
-/

namespace WW

/-- JSON values as produced by `json.load` / `r.json()`.  Objects model
parsed Python dicts (keys unique, insertion ordered). -/
inductive Json where
  | null : Json
  | bool : Bool → Json
  | num : Int → Json
  | str : String → Json
  | arr : List Json → Json
  | obj : List (String × Json) → Json
deriving Repr, Inhabited

/-- Python whitespace characters stripped by `str.strip()` (ASCII part). -/
def isPySpace (c : Char) : Bool :=
  c = ' ' || c = '\t' || c = '\n' || c = '\r' || c = Char.ofNat 11 || c = Char.ofNat 12

/-- `str.strip()`: remove leading and trailing whitespace. -/
def pyStrip (s : String) : String :=
  String.mk (((s.toList.dropWhile isPySpace).reverse.dropWhile isPySpace).reverse)

/-- `str.lower()` restricted to ASCII letters and the Latvian uppercase
diacritic letters appearing in the feed data. -/
def pyLowerChar (c : Char) : Char :=
  if 65 ≤ c.toNat ∧ c.toNat ≤ 90 then Char.ofNat (c.toNat + 32)
  else if c = 'Ā' then 'ā' else if c = 'Č' then 'č' else if c = 'Ē' then 'ē'
  else if c = 'Ģ' then 'ģ' else if c = 'Ī' then 'ī' else if c = 'Ķ' then 'ķ'
  else if c = 'Ļ' then 'ļ' else if c = 'Ņ' then 'ņ' else if c = 'Š' then 'š'
  else if c = 'Ū' then 'ū' else if c = 'Ž' then 'ž' else c

/-- `str.upper()` restricted to ASCII letters and the Latvian lowercase
diacritic letters appearing in the feed data. -/
def pyUpperChar (c : Char) : Char :=
  if 97 ≤ c.toNat ∧ c.toNat ≤ 122 then Char.ofNat (c.toNat - 32)
  else if c = 'ā' then 'Ā' else if c = 'č' then 'Č' else if c = 'ē' then 'Ē'
  else if c = 'ģ' then 'Ģ' else if c = 'ī' then 'Ī' else if c = 'ķ' then 'Ķ'
  else if c = 'ļ' then 'Ļ' else if c = 'ņ' then 'Ņ' else if c = 'š' then 'Š'
  else if c = 'ū' then 'Ū' else if c = 'ž' then 'Ž' else c

def pyLower (s : String) : String := String.mk (s.toList.map pyLowerChar)

def pyUpper (s : String) : String := String.mk (s.toList.map pyUpperChar)

/-- Does the pattern occur as a prefix of the list? -/
def prefixOfL : List Char → List Char → Bool
  | [], _ => true
  | _ :: _, [] => false
  | a :: as, b :: bs => a = b && prefixOfL as bs

/-- Python's substring test `t in s` on character lists. -/
def inL (pat : List Char) : List Char → Bool
  | [] => prefixOfL pat []
  | c :: s => prefixOfL pat (c :: s) || inL pat s

/-- Python's substring test `t in s` on strings. -/
def pyIn (pat s : String) : Bool := inL pat.toList s.toList

/-- Truthiness of a JSON value under Python `bool(...)`. -/
def jTruthy : Json → Bool
  | .null => false
  | .bool b => b
  | .num n => n != 0
  | .str s => s ≠ ""
  | .arr xs => !xs.isEmpty
  | .obj kvs => !kvs.isEmpty

/-- Python `a or b`: left operand if truthy, otherwise right operand. -/
def pyOr (a b : Json) : Json := if jTruthy a then a else b

/-- First-match lookup in a parsed-dict key-value list. -/
def jlookup : List (String × Json) → String → Option Json
  | [], _ => none
  | (k, v) :: rest, key => if k = key then some v else jlookup rest key

/-- Python dict assignment `d[k] = v`: replace in place, else append. -/
def jset : List (String × Json) → String → Json → List (String × Json)
  | [], k, v => [(k, v)]
  | (k', v') :: rest, k, v =>
    if k' = k then (k, v) :: rest else (k', v') :: jset rest k v

/-- `item.get(k)`: `None` (modelled as `.null`) when absent or when the
receiver is not a dict; the callers below only apply it to dicts. -/
def jget (j : Json) (key : String) : Json :=
  match j with
  | .obj kvs => (jlookup kvs key).getD .null
  | _ => .null

/-- `safe_get(d, path, default=None)` from the source: walk nested dicts,
returning `None` as soon as a step is missing or not a dict. -/
def safe_get (j : Json) : List String → Json
  | [] => j
  | p :: rest =>
    match j with
    | .obj kvs =>
      match jlookup kvs p with
      | some v => safe_get v rest
      | none => .null
    | _ => .null

/-- Single-quote a string the way CPython `repr` does (the data handled
here is quote-free, so no escaping is modelled). -/
def pyQuote (s : String) : String :=
  String.singleton (Char.ofNat 39) ++ s ++ String.singleton (Char.ofNat 39)

/-- CPython `repr` of a parsed JSON value, used for elements inside
containers by `str(...)`. -/
def pyReprQ : Json → String
  | .str s => pyQuote s
  | .null => "None"
  | .bool true => "True"
  | .bool false => "False"
  | .num n => toString n
  | .arr xs =>
    "[" ++ ", ".intercalate (xs.attach.map (fun x => pyReprQ x.1)) ++ "]"
  | .obj kvs =>
    "\x7b" ++ ", ".intercalate
      (kvs.attach.map (fun kv => pyQuote kv.1.1 ++ ": " ++ pyReprQ kv.1.2)) ++ "\x7d"
decreasing_by
  · have h := List.sizeOf_lt_of_mem x.2
    simp_wf
    omega
  · have h := List.sizeOf_lt_of_mem kv.2
    obtain ⟨⟨k, v⟩, hm⟩ := kv
    simp_wf
    simp at h
    omega

/-- Python `str(...)` of a parsed JSON value. -/
def pyStr : Json → String
  | .null => "None"
  | .bool true => "True"
  | .bool false => "False"
  | .num n => toString n
  | .str s => s
  | .arr xs =>
    "[" ++ ", ".intercalate (xs.map pyReprQ) ++ "]"
  | .obj kvs =>
    "\x7b" ++ ", ".intercalate
      (kvs.map (fun kv => pyQuote kv.1 ++ ": " ++ pyReprQ kv.2)) ++ "\x7d"

/-- `norm(s)` from the source: `""` for `None`, else `str(s).strip()`. -/
def norm (j : Json) : String :=
  match j with
  | .null => ""
  | j => pyStrip (pyStr j)

def FEED_URL : String := "https://feeds.meteoalarm.org/api/v1/warnings/feeds-latvia/"

/-- The canonical warning record built by `extract_warnings`. -/
structure Warning where
  timestamp_utc : String
  identifier : String
  level : String
  hazard : String
  event : String
  areas : String
  onset : String
  expires : String
  description : String
  source : String
deriving Repr, DecidableEq

/-- A fingerprint: the key-sorted key-value list of the eight-field dict
that `fingerprint` passes to `json.dumps(..., sort_keys=True)`.  The
serialization is injective in the values, so the list itself is kept. -/
abbrev Fp : Type := List (String × String)

/-- `fingerprint(w)` from the source: the change-detection digest over
level, hazard, event, areas, onset, expires, description, source — the
keys in `sort_keys=True` order, never the ingestion timestamp. -/
def fingerprint (w : Warning) : Fp :=
  [("areas", w.areas), ("description", w.description), ("event", w.event),
   ("expires", w.expires), ("hazard", w.hazard), ("level", w.level),
   ("onset", w.onset), ("source", w.source)]

/-- The marine keyword list exactly as it appears (byte for byte) in the
source: the two Latvian entries are mojibake-garbled in the file
(`lƒ´cis`, `j≈´ra` instead of the words for gulf and sea). -/
def marine_terms : List String :=
  ["marine", "sea", "gulf", "lƒ´cis", "j≈´ra", "piekrast", "coast",
   "waves", "wave", "swell", "gusts at sea", "at sea"]

/-- `is_marine_warning(hazard, event, areas)` from the source: true iff
any marine term occurs in the lowercased concatenation
`f"{hazard} {event} {areas}"`. -/
def is_marine_warning (hazard event areas : String) : Bool :=
  let text := pyLower (hazard ++ " " ++ event ++ " " ++ areas)
  marine_terms.any (fun t => pyIn t text)

/-- `level_from_color(color)` from the source. -/
def level_from_color (color : String) : String :=
  let c := pyLower (pyStrip color)
  if c = "red" then "RED"
  else if c = "orange" then "ORANGE"
  else if c = "yellow" then "YELLOW"
  else if c = "green" then "GREEN"
  else if c ≠ "" then pyUpper c else ""

/-- One iteration of the `for item in candidates` loop of
`extract_warnings`; `none` models the `continue` on a non-dict item.
`now` stands for the `utc_now_iso()` call stamping the record. -/
def extractItem (now : String) (item : Json) : Option Warning :=
  match item with
  | .obj kvs =>
    let it := Json.obj kvs
    let identifier0 :=
      norm (pyOr (jget it "identifier")
        (pyOr (jget it "id") (safe_get it ["alert", "identifier"])))
    let color :=
      norm (pyOr (jget it "color")
        (pyOr (jget it "level") (safe_get it ["alert", "level"])))
    let level :=
      if pyLower color ∈ ["green", "yellow", "orange", "red"] then
        level_from_color color
      else pyUpper (norm (.str color))
    let hazard :=
      norm (pyOr (jget it "hazard")
        (pyOr (jget it "event") (safe_get it ["alert", "event"])))
    let event :=
      norm (pyOr (jget it "headline")
        (pyOr (jget it "title") (pyOr (jget it "event") (.str hazard))))
    let areas0 :=
      norm (pyOr (jget it "area")
        (pyOr (jget it "areas")
          (pyOr (jget it "region") (safe_get it ["alert", "area"]))))
    let onset :=
      norm (pyOr (jget it "onset")
        (pyOr (jget it "start") (safe_get it ["alert", "onset"])))
    let expires :=
      norm (pyOr (jget it "expires")
        (pyOr (jget it "end") (safe_get it ["alert", "expires"])))
    let description :=
      norm (pyOr (jget it "description")
        (pyOr (jget it "text") (safe_get it ["alert", "description"])))
    let source :=
      norm (pyOr (jget it "url")
        (pyOr (jget it "source")
          (pyOr (safe_get it ["alert", "web"]) (.str FEED_URL))))
    let areas :=
      match jget it "areas" with
      | .arr xs => ", ".intercalate ((xs.map norm).filter (· ≠ ""))
      | _ => areas0
    let identifier :=
      if identifier0 = "" then
        level ++ ":" ++ hazard ++ ":" ++ areas ++ ":" ++ onset ++ ":" ++ expires
      else identifier0
    some
      { timestamp_utc := now, identifier := identifier, level := level,
        hazard := hazard, event := event, areas := areas, onset := onset,
        expires := expires, description := description, source := source }
  | _ => none

/-- `isinstance(v, list)` refinement: the payload when the value is a
list, else `none`. -/
def asList : Json → Option (List Json)
  | .arr v => some v
  | _ => none

/-- Candidate-list selection of `extract_warnings`: the loop takes the
first of the top-level keys `warnings`, `data`, `alerts`, `items`
bound to a list (empty or not, with `break`); then
`if not candidates:` — i.e. also when that first list was *empty* —
the code falls through to the list at `result.warnings` when there is
one, else the candidates stay empty. -/
def extractCandidates (feed : Json) : List Json :=
  let candidates :=
    match asList (jget feed "warnings") with
    | some v => v
    | none =>
      match asList (jget feed "data") with
      | some v => v
      | none =>
        match asList (jget feed "alerts") with
        | some v => v
        | none =>
          match asList (jget feed "items") with
          | some v => v
          | none => []
  if candidates.isEmpty then
    match asList (safe_get feed ["result", "warnings"]) with
    | some v => v
    | none => candidates
  else candidates

/-- `extract_warnings(feed)` from the source: normalize the feed into a
list of warnings (non-dict candidates are skipped).  The argument is a
parsed JSON object, per the source's `Dict[str, Any]` annotation. -/
def extract_warnings (now : String) (feed : Json) : List Warning :=
  (extractCandidates feed).filterMap (extractItem now)

/-- Errors a fetch attempt (`requests.get` / `raise_for_status` / JSON
decoding) can raise. -/
inductive FetchErr where
  | timeout | connection | httpStatus (code : Nat)
deriving Repr, DecidableEq

/-- Errors a notification transport can raise. -/
inductive NetErr where
  | timeout | connection
deriving Repr, DecidableEq

/-- Uncaught Python exceptions that can escape `main`. -/
inductive PyError where
  | attributeError
  | fetchFailed (e : FetchErr)
  | transport (e : NetErr)
  | smtp (e : NetErr)
deriving Repr, DecidableEq

/-- What the state file holds when the run starts. -/
inductive StateFileContent where
  | missing | unreadable | malformed
  | parsed (j : Json)

/-- The default state record returned by `load_state` on any miss. -/
def defaultState : Json :=
  .obj [("seen", .obj []), ("last_run_utc", .str "")]

/-- `load_state()` from the source: a missing file or any read/parse
exception yields the default record; otherwise the parsed JSON value is
returned as-is (whatever its type). -/
def load_state : StateFileContent → Json
  | .parsed j => j
  | _ => defaultState

/-- The `seen` initialisation in `main`:
`state.get("seen", {}) if isinstance(state.get("seen"), dict) else {}`.
On a non-dict state value, `.get` raises `AttributeError`. -/
def seenFromState (state : Json) : Except PyError (List (String × Json)) :=
  match state with
  | .obj kvs =>
    .ok (match jlookup kvs "seen" with
         | some (.obj s) => s
         | _ => [])
  | _ => .error .attributeError

/-- `fetch_feed_with_retries`: the list holds the outcome each attempt
would have; the first success is returned, and when every attempt fails
the last error is raised (`raise last_err`).  `main` always supplies
`retries=3` attempts, so the empty case is unreachable. -/
def fetch_feed_with_retries : List (Except FetchErr Json) → Except PyError Json
  | [] => .error (.fetchFailed .connection)
  | [a] =>
    match a with
    | .ok j => .ok j
    | .error e => .error (.fetchFailed e)
  | a :: rest =>
    match a with
    | .ok j => .ok j
    | .error _ => fetch_feed_with_retries rest

/-- The history dedup key used by `main` and `load_history_keys`:
`(identifier, level, hazard, areas, onset, expires)`. -/
abbrev HKey : Type := String × String × String × String × String × String

def hkey (w : Warning) : HKey :=
  (w.identifier, w.level, w.hazard, w.areas, w.onset, w.expires)

/-- Is a stored `seen` value (arbitrary JSON from the state file) equal
to the given fingerprint's canonical encoding?  This is Python's
`seen.get(key) != fp` comparison: the stored serialized fingerprint
string equals the freshly dumped one iff the underlying key-value lists
agree, by injectivity of `json.dumps(..., sort_keys=True)`. -/
def fpMatch : List (String × Json) → Fp → Bool
  | [], [] => true
  | (k, .str v) :: rest, (k', v') :: rest' =>
    k = k' && v = v' && fpMatch rest rest'
  | _, _ => false

/-- `seen.get(key) == fp` with `seen.get` returning `None` when absent
(`None` never equals a fingerprint). -/
def storedEq : Option Json → Fp → Bool
  | some (.obj kvs), fp => fpMatch kvs fp
  | _, _ => false

/-- The canonical JSON encoding under which a computed fingerprint is
stored in the `seen` map. -/
def encodeFp (fp : Fp) : Json :=
  .obj (fp.map (fun kv => (kv.1, Json.str kv.2)))

/-- Output of the change-detection/history `for w in filtered` loop. -/
structure LoopOut where
  changed : List Warning
  seen : List (String × Json)
  historyAdd : List Warning
  historyKeys : List HKey
deriving Repr

/-- The `for w in filtered` loop of `main`: change detection against the
`seen` map and history dedup against `history_keys`, exactly as in the
source (appends at the end of `changed` / `history_add`, in-place map
update, set insertion). -/
def mainLoop (seen : List (String × Json)) (hkeys : List HKey)
    (changed : List Warning) (hadd : List Warning) :
    List Warning → LoopOut
  | [] => ⟨changed, seen, hadd, hkeys⟩
  | w :: ws =>
    let fp := fingerprint w
    let p :=
      if storedEq (jlookup seen w.identifier) fp then (changed, seen)
      else (changed ++ [w], jset seen w.identifier (encodeFp fp))
    let q :=
      if hkey w ∈ hkeys then (hkeys, hadd)
      else (hkey w :: hkeys, hadd ++ [w])
    mainLoop p.2 q.1 p.1 q.2 ws

/-- The marine-suppression loop of `main`: drop a warning iff the
suppression flag is on and `is_marine_warning` fires. -/
def filterLoop (suppress : Bool) (acc : List Warning) :
    List Warning → List Warning
  | [] => acc
  | w :: ws =>
    if suppress && is_marine_warning w.hazard w.event w.areas then
      filterLoop suppress acc ws
    else filterLoop suppress (acc ++ [w]) ws

/-- `order.get(level, 9)` in `format_grouped_email`. -/
def levelOrderKey (level : String) : Nat :=
  if level = "RED" then 0
  else if level = "ORANGE" then 1
  else if level = "YELLOW" then 2
  else if level = "GREEN" then 3
  else 9

/-- The comparison behind `sorted(changed, key=...)` in
`format_grouped_email`: lexicographic on (level order, hazard, areas). -/
def digestLe (a b : Warning) : Bool :=
  levelOrderKey a.level < levelOrderKey b.level ||
  (levelOrderKey a.level = levelOrderKey b.level &&
    (a.hazard < b.hazard || (a.hazard = b.hazard && a.areas ≤ b.areas)))

/-- The digest block list: `format_grouped_email` renders one block per
element of this sorted list into the single grouped email body. -/
def changedSorted (changed : List Warning) : List Warning :=
  changed.mergeSort digestLe

/-- Python `raw.split(",")` (`cur` holds the reversed field being
read; an empty input yields `[""]`, as in Python). -/
def splitCommaAux (cur : List Char) : List Char → List String
  | [] => [String.mk cur.reverse]
  | c :: rest =>
    if c = ',' then String.mk cur.reverse :: splitCommaAux [] rest
    else splitCommaAux (c :: cur) rest

def pySplitComma (s : String) : List String := splitCommaAux [] s.toList

/-- `TG_LEVELS` parsing in `main`:
`set([x.strip().upper() for x in raw.split(",") if x.strip()])`,
modelled as the corresponding list. -/
def parseTgLevels (raw : String) : List String :=
  ((pySplitComma raw).filter (fun x => pyStrip x ≠ "")).map
    (fun x => pyUpper (pyStrip x))

/-- `SUPPRESS_MARINE` parsing: `os.getenv("SUPPRESS_MARINE","1").strip() != "0"`. -/
def suppressFlag (envVal : Option String) : Bool :=
  pyStrip (envVal.getD "1") ≠ "0"

/-- `send_email`: skipped (no exception, nothing sent) when the SMTP
configuration is incomplete; otherwise the SMTP conversation either
succeeds or raises, and the exception is not caught anywhere. -/
def send_email (cfg : Bool) (smtpResult : Except NetErr Unit) :
    Except PyError Bool :=
  if cfg then
    match smtpResult with
    | .error e => .error (.smtp e)
    | .ok _ => .ok true
  else .ok false

/-- The Telegram escalation loop of `main`:
`for w in changed: if w["level"].upper() in tg_levels: telegram_send(...)`.
`telegram_send` skips silently when unconfigured; when configured it
posts (the `n`-th post outcome is `post n`).  A raised transport error
is not caught and aborts the loop; a non-2xx status is only printed.
Returns the warnings for which `telegram_send` was invoked, the next
post index, and the escaping exception if any. -/
def tgLoop (cfg : Bool) (post : Nat → Except NetErr Nat)
    (lvls : List String) :
    List Warning → Nat → List Warning × Nat × Option PyError
  | [], n => ([], n, none)
  | w :: ws, n =>
    if pyUpper w.level ∈ lvls then
      if cfg then
        match post n with
        | .error e => ([w], n + 1, some (.transport e))
        | .ok _status =>
          let r := tgLoop cfg post lvls ws (n + 1)
          (w :: r.1, r.2)
      else
        let r := tgLoop cfg post lvls ws n
        (w :: r.1, r.2)
    else tgLoop cfg post lvls ws n

/-- Python dict assignment on a JSON value; `main` only reaches its
state assignments once the state is known to be a dict. -/
def jsetJ : Json → String → Json → Json
  | .obj kvs, k, v => .obj (jset kvs k v)
  | j, _, _ => j

/-- `state["seen"] = seen; state["last_run_utc"] = utc_now_iso();
save_state(state)` — the JSON blob written at the end of the run. -/
def saveStateJson (state : Json) (seen : List (String × Json))
    (now2 : String) : Json :=
  jsetJ (jsetJ state "seen" (.obj seen)) "last_run_utc" (.str now2)

/-- Everything `main` reads from its surroundings: environment
variables, the state file, the history file's key set, and the outcome
each external call would have. -/
structure Env where
  suppressMarineEnv : Option String
  tgLevelsEnv : Option String
  stateContent : StateFileContent
  historyKeys : List HKey
  fetch1 : Except FetchErr Json
  fetch2 : Except FetchErr Json
  fetch3 : Except FetchErr Json
  emailConfigured : Bool
  smtpResult : Except NetErr Unit
  tgConfigured : Bool
  tgPost : Nat → Except NetErr Nat
  now : String
  now2 : String

/-- Observable outcome of one invocation of `main`: the escaped
exception if any (`none` = normal termination, success exit status),
the rows appended to the history file, whether the digest email went
out, the warnings for which a Telegram send was invoked, and the state
blob written by `save_state` (`none` = `save_state` never ran). -/
structure RunResult where
  error : Option PyError
  historyAppended : List Warning
  emailSent : Bool
  tgCalls : List Warning
  savedState : Option Json
deriving Repr

/-- `main()` from the source, step by step: parse env config, load
state, extract `seen`, fetch with retries, normalize, marine-filter,
detect changes and history rows, append history, send the digest and
the per-warning escalations only when something changed, save state
last.  Any uncaught exception aborts the remaining steps. -/
def runMain (env : Env) : RunResult :=
  let suppress_marine := suppressFlag env.suppressMarineEnv
  let tg_levels := parseTgLevels (env.tgLevelsEnv.getD "ORANGE,RED")
  let state := load_state env.stateContent
  match seenFromState state with
  | .error e => ⟨some e, [], false, [], none⟩
  | .ok seen0 =>
    match fetch_feed_with_retries [env.fetch1, env.fetch2, env.fetch3] with
    | .error e => ⟨some e, [], false, [], none⟩
    | .ok feed =>
      let warnings := extract_warnings env.now feed
      let filtered := filterLoop suppress_marine [] warnings
      let out := mainLoop seen0 env.historyKeys [] [] filtered
      if out.changed.isEmpty then
        ⟨none, out.historyAdd, false, [],
          some (saveStateJson state out.seen env.now2)⟩
      else
        match send_email env.emailConfigured env.smtpResult with
        | .error e => ⟨some e, out.historyAdd, false, [], none⟩
        | .ok sent =>
          match tgLoop env.tgConfigured env.tgPost tg_levels out.changed 0 with
          | (calls, _, some e) => ⟨some e, out.historyAdd, sent, calls, none⟩
          | (calls, _, none) =>
            ⟨none, out.historyAdd, sent, calls,
              some (saveStateJson state out.seen env.now2)⟩

/-! ## Spec-side definitions

These definitions follow the specification's words (not the source) and
exist only to state claims: the clean fingerprint-map change detector
(for the refinement claim C1) and the whitespace-collapse equivalence
the spec asserts for fingerprints (claim C4). -/

/-- Lookup in a spec-level `identifier → fingerprint` map. -/
def lookupFp : List (String × Fp) → String → Option Fp
  | [], _ => none
  | (k, v) :: rest, key => if k = key then some v else lookupFp rest key

/-- Update of a spec-level `identifier → fingerprint` map. -/
def setFp : List (String × Fp) → String → Fp → List (String × Fp)
  | [], k, v => [(k, v)]
  | (k', v') :: rest, k, v =>
    if k' = k then (k, v) :: rest else (k', v') :: setFp rest k v

/-- Modelled from the spec: "For each normalized warning: look up
`state[identifier]`; if absent or different from the new fingerprint,
the warning is changed and `state[identifier]` is updated to the new
fingerprint." -/
def changeDetectSpec :
    List Warning → List (String × Fp) → List Warning × List (String × Fp)
  | [], st => ([], st)
  | w :: ws, st =>
    if lookupFp st w.identifier = some (fingerprint w) then
      changeDetectSpec ws st
    else
      let r := changeDetectSpec ws (setFp st w.identifier (fingerprint w))
      (w :: r.1, r.2)

/-- The `seen` map representing a spec-level fingerprint map. -/
def encodeSeen (st : List (String × Fp)) : List (String × Json) :=
  st.map (fun kv => (kv.1, encodeFp kv.2))

/-- Whitespace-separated tokens of a character list (`cur` holds the
reversed token being read). -/
def wsTokens (cur : List Char) : List Char → List String
  | [] => if cur.isEmpty then [] else [String.mk cur.reverse]
  | c :: rest =>
    if isPySpace c then
      if cur.isEmpty then wsTokens [] rest
      else String.mk cur.reverse :: wsTokens [] rest
    else wsTokens (c :: cur) rest

/-- Modelled from the spec: two texts differ only by whitespace
(leading, trailing, or embedded, newlines included) iff they agree
after trimming and collapsing every whitespace run to one space. -/
def wsCollapse (s : String) : String :=
  " ".intercalate (wsTokens [] s.toList)

/-! ## Helper lemmas -/

theorem jlookup_jset_self (kvs : List (String × Json)) (k : String)
    (v : Json) : jlookup (jset kvs k v) k = some v := by
  induction kvs with
  | nil => simp [jset, jlookup]
  | cons hd tl ih =>
    obtain ⟨k', v'⟩ := hd
    by_cases h : k' = k <;> simp [jset, jlookup, h, ih]

theorem jlookup_jset_other (kvs : List (String × Json)) (k k' : String)
    (v : Json) (h : k' ≠ k) :
    jlookup (jset kvs k' v) k = jlookup kvs k := by
  induction kvs with
  | nil => simp [jset, jlookup, h]
  | cons hd tl ih =>
    obtain ⟨k'', v''⟩ := hd
    by_cases h2 : k'' = k'
    · subst h2
      simp [jset, jlookup, h]
    · by_cases h3 : k'' = k <;>
        simp [jset, jlookup, h2, h3, ih, Ne.symm h]

theorem jset_self_of_lookup (kvs : List (String × Json)) (k : String)
    (v : Json) (h : jlookup kvs k = some v) : jset kvs k v = kvs := by
  induction kvs with
  | nil => simp [jlookup] at h
  | cons hd tl ih =>
    obtain ⟨k', v'⟩ := hd
    by_cases h2 : k' = k
    · subst h2
      simp [jlookup] at h
      simp [jset, h]
    · simp [jlookup, h2] at h
      simp [jset, h2, ih h]

theorem fpMatch_encode (f g : Fp) : fpMatch (f.map (fun kv => (kv.1, Json.str kv.2))) g = true ↔ f = g := by
  induction f generalizing g with
  | nil => cases g <;> simp [fpMatch]
  | cons hd tl ih =>
    obtain ⟨k, v⟩ := hd
    cases g with
    | nil => simp [fpMatch]
    | cons hd' tl' =>
      obtain ⟨k', v'⟩ := hd'
      simp only [List.map_cons, fpMatch, Bool.and_eq_true, decide_eq_true_eq, ih,
        List.cons.injEq, Prod.mk.injEq]

theorem storedEq_encode (f g : Fp) :
    storedEq (some (encodeFp f)) g = true ↔ f = g := by
  simp [storedEq, encodeFp, fpMatch_encode]

theorem jlookup_encodeSeen (st : List (String × Fp)) (k : String) :
    jlookup (encodeSeen st) k = (lookupFp st k).map encodeFp := by
  induction st with
  | nil => simp [encodeSeen, jlookup, lookupFp]
  | cons hd tl ih =>
    obtain ⟨k', v⟩ := hd
    by_cases h : k' = k <;> simp [encodeSeen, jlookup, lookupFp, h] <;>
      simpa [encodeSeen] using ih

theorem jset_encodeSeen (st : List (String × Fp)) (k : String) (f : Fp) :
    jset (encodeSeen st) k (encodeFp f) = encodeSeen (setFp st k f) := by
  induction st with
  | nil => simp [encodeSeen, jset, setFp]
  | cons hd tl ih =>
    obtain ⟨k', v⟩ := hd
    by_cases h : k' = k <;> simp [encodeSeen, jset, setFp, h] <;>
      simpa [encodeSeen] using ih

/-- The stored-value comparison over an encoded fingerprint map agrees
with the spec-level map lookup. -/
theorem storedEq_encodeSeen (st : List (String × Fp)) (k : String) (f : Fp) :
    storedEq (jlookup (encodeSeen st) k) f = true ↔ lookupFp st k = some f := by
  rw [jlookup_encodeSeen]
  cases h : lookupFp st k with
  | none => simp [storedEq]
  | some g => simp [storedEq_encode]

theorem filterLoop_eq_filter (suppress : Bool) (acc ws : List Warning) :
    filterLoop suppress acc ws =
      acc ++ ws.filter
        (fun w => !(suppress && is_marine_warning w.hazard w.event w.areas)) := by
  induction ws generalizing acc with
  | nil => simp [filterLoop]
  | cons w ws ih =>
    rw [filterLoop]
    by_cases h : (suppress && is_marine_warning w.hazard w.event w.areas) = true
    · have hp : (!(suppress && is_marine_warning w.hazard w.event w.areas)) = false := by
        rw [h]; rfl
      rw [if_pos h, ih, List.filter_cons, hp]
      simp
    · have hb : (suppress && is_marine_warning w.hazard w.event w.areas) = false := by
        simpa using h
      have hp : (!(suppress && is_marine_warning w.hazard w.event w.areas)) = true := by
        rw [hb]; rfl
      rw [if_neg h, ih, List.filter_cons, hp]
      simp

/-- Over a `seen` map holding (encoded) fingerprints, the source's
combined loop computes, in its `changed`/`seen` components, exactly the
spec-level change detector, for any accumulator contents and any
history state. -/
theorem mainLoop_refines (ws : List Warning) (st : List (String × Fp))
    (hk : List HKey) (c h : List Warning) :
    (mainLoop (encodeSeen st) hk c h ws).changed = c ++ (changeDetectSpec ws st).1 ∧
    (mainLoop (encodeSeen st) hk c h ws).seen = encodeSeen (changeDetectSpec ws st).2 := by
  induction ws generalizing st hk c h with
  | nil => simp [mainLoop, changeDetectSpec]
  | cons w ws ih =>
    cases hs : storedEq (jlookup (encodeSeen st) w.identifier) (fingerprint w) with
    | true =>
      have hc : lookupFp st w.identifier = some (fingerprint w) :=
        (storedEq_encodeSeen st w.identifier (fingerprint w)).mp hs
      rw [changeDetectSpec, if_pos hc]
      by_cases hq : hkey w ∈ hk <;>
        simpa [mainLoop, hs, hq] using ih st _ c _
    | false =>
      have hc : ¬ lookupFp st w.identifier = some (fingerprint w) := by
        intro hh
        rw [(storedEq_encodeSeen st w.identifier (fingerprint w)).mpr hh] at hs
        cases hs
      rw [changeDetectSpec, if_neg hc]
      by_cases hq : hkey w ∈ hk <;>
        simpa [mainLoop, hs, hq, jset_encodeSeen] using
          ih (setFp st w.identifier (fingerprint w)) _ (c ++ [w]) _

/-- C1: for every warning processed by the main loop, the warning lands
in `changed` iff the fingerprint stored under its identifier at that
point differs (an absent identifier never equals a fingerprint, so the
first sighting is always changed), and exactly in that case the map
entry is updated — i.e. the source loop refines the spec's sequential
change detector on any fingerprint-valued state map. -/
theorem changeDetector_refines_spec (ws : List Warning)
    (st : List (String × Fp)) (hk : List HKey) :
    (mainLoop (encodeSeen st) hk [] [] ws).changed = (changeDetectSpec ws st).1 ∧
    (mainLoop (encodeSeen st) hk [] [] ws).seen = encodeSeen (changeDetectSpec ws st).2 := by
  simpa using mainLoop_refines ws st hk [] []

/-- A warning whose only marine-looking text is in `hazard` (empty
`areas`): the claim says it must never be suppressed. -/
def wSea : Warning :=
  { timestamp_utc := "2026-01-15T00:00:00Z", identifier := "sea-1",
    level := "YELLOW", hazard := "gusts at sea", event := "",
    areas := "", onset := "", expires := "", description := "",
    source := "" }

/-- A warning with a mix of one non-marine and one marine area: the
claim says a mixed warning must never be suppressed. -/
def wMix : Warning :=
  { timestamp_utc := "2026-01-15T00:00:00Z", identifier := "mix-1",
    level := "YELLOW", hazard := "", event := "",
    areas := "Rīga, piekraste", onset := "", expires := "",
    description := "", source := "" }

/-- C2 counterexample: with suppression on (the default), the code
suppresses a warning whose area string is empty (marine text in
`hazard` alone triggers it) and suppresses a warning whose areas mix a
non-marine area with a marine one — both contradict "suppressed only if
it has at least one area entry and every area matches" and "a warning
with an empty area string is never suppressed". -/
theorem marineFilter_claim_cex :
    suppressFlag none = true ∧
    wSea.areas = "" ∧ filterLoop true [] [wSea] = [] ∧
    wMix.areas = "Rīga, piekraste" ∧ filterLoop true [] [wMix] = [] := by
  decide

/-- C2 (amended): the filter drops a warning iff the flag is on and
some keyword of the (mojibake-garbled) marine list occurs
case-insensitively in the concatenation of hazard, event and areas.
Area entries are never examined individually.  The claim's own example
`"Rīga, Baltijas jūra"` is nevertheless kept, because the garbled
Latvian keywords in the source fail to match `jūra`. -/
theorem marineFilter_amended :
    (∀ (suppress : Bool) (ws : List Warning),
      filterLoop suppress [] ws =
        ws.filter
          (fun w => !(suppress && is_marine_warning w.hazard w.event w.areas))) ∧
    is_marine_warning "" "" "Rīga, Baltijas jūra" = false ∧
    filterLoop true []
      [{ wMix with identifier := "riga-jura", areas := "Rīga, Baltijas jūra" }] =
      [{ wMix with identifier := "riga-jura", areas := "Rīga, Baltijas jūra" }] := by
  refine ⟨fun s ws => by simpa using filterLoop_eq_filter s [] ws, ?_, ?_⟩ <;> decide

/-- A concrete environment in which every fetch attempt fails. -/
def envOutage : Env :=
  { suppressMarineEnv := none, tgLevelsEnv := none,
    stateContent := .missing, historyKeys := [],
    fetch1 := .error .timeout, fetch2 := .error .connection,
    fetch3 := .error (.httpStatus 503),
    emailConfigured := false, smtpResult := .ok (), tgConfigured := false,
    tgPost := fun _ => .ok 200, now := "T1", now2 := "T2" }

/-- C3 counterexample: when all three fetch attempts fail the run does
not complete normally — the last fetch error escapes `main` (non-zero
exit), and `save_state` never runs, so not even `last_run` is
persisted; the claim's "terminates with a success exit status" and "the
previous state is persisted (apart from last_run)" are both false. -/
theorem fetchOutage_claim_cex :
    envOutage.fetch1 = .error .timeout ∧
    envOutage.fetch2 = .error .connection ∧
    envOutage.fetch3 = .error (.httpStatus 503) ∧
    runMain envOutage =
      ⟨some (.fetchFailed (.httpStatus 503)), [], false, [], none⟩ :=
  ⟨rfl, rfl, rfl, rfl⟩

/-- C3 (amended): when every fetch attempt fails, `main` aborts with
the last attempt's error: no history rows are written, no notification
of either kind is attempted, and the state file is left untouched —
`save_state` never runs, so `last_run` is not even updated, and the
process exits with a failure status. -/
theorem fetchOutage_amended (env : Env) (seen0 : List (String × Json))
    (e1 e2 e3 : FetchErr)
    (hseen : seenFromState (load_state env.stateContent) = .ok seen0)
    (h1 : env.fetch1 = .error e1) (h2 : env.fetch2 = .error e2)
    (h3 : env.fetch3 = .error e3) :
    runMain env = ⟨some (.fetchFailed e3), [], false, [], none⟩ := by
  simp only [runMain, h1, h2, h3]
  rw [hseen]
  simp [fetch_feed_with_retries]

theorem fetchOutage_amended_witness :
    runMain envOutage =
      ⟨some (.fetchFailed (.httpStatus 503)), [], false, [], none⟩ :=
  fetchOutage_amended envOutage [] .timeout .connection (.httpStatus 503)
    rfl rfl rfl rfl

/-- A concrete fully-populated warning used in fingerprint claims. -/
def wBase : Warning :=
  { timestamp_utc := "2026-01-15T00:00:00Z", identifier := "base-1",
    level := "ORANGE", hazard := "vējš", event := "Strong wind",
    areas := "Rīgas rajons", onset := "2026-01-15T04:00:00+02:00",
    expires := "2026-01-15T20:00:00+02:00", description := "desc",
    source := "https://example.org/w" }

/-- C4 counterexample: the descriptions `"a b"` and `"a\nb"` differ
only in internal whitespace (they collapse to the same text), pass
through the pipeline's `norm` unchanged (nothing to trim), yet the two
normalized warnings have different fingerprints — embedded newlines are
not collapsed anywhere in the code. -/
theorem fingerprint_whitespace_cex :
    wsCollapse "a b" = wsCollapse "a\nb" ∧
    pyStrip "a b" = "a b" ∧ pyStrip "a\nb" = "a\nb" ∧
    fingerprint { wBase with description := pyStrip "a b" } ≠
      fingerprint { wBase with description := pyStrip "a\nb" } := by
  decide

/-- C4 (amended): the fingerprint never depends on the ingestion
timestamp; descriptions that agree after trimming leading/trailing
whitespace (the only whitespace normalization the code performs)
fingerprint identically; and equal fingerprints force equal `level`,
`areas`, `onset` and `expires` (so any change to those fields changes
the fingerprint).  Whitespace differences inside the description do
register as changes. -/
theorem fingerprint_amended :
    (∀ (w : Warning) (t : String),
      fingerprint { w with timestamp_utc := t } = fingerprint w) ∧
    (∀ (w : Warning) (d1 d2 : String), pyStrip d1 = pyStrip d2 →
      fingerprint { w with description := pyStrip d1 } =
        fingerprint { w with description := pyStrip d2 }) ∧
    (∀ w1 w2 : Warning, fingerprint w1 = fingerprint w2 →
      w1.level = w2.level ∧ w1.areas = w2.areas ∧ w1.onset = w2.onset ∧
        w1.expires = w2.expires) := by
  refine ⟨fun w t => rfl, fun w d1 d2 h => by rw [h], fun w1 w2 h => ?_⟩
  simp only [fingerprint, List.cons.injEq, Prod.mk.injEq, true_and,
    and_true] at h
  obtain ⟨ha, hd, he, hx, hh, hl, ho, hs⟩ := h
  exact ⟨hl, ha, ho, hx⟩

theorem fingerprint_amended_witness :
    fingerprint { wBase with description := pyStrip " x" } =
      fingerprint { wBase with description := pyStrip "x  " } :=
  fingerprint_amended.2.1 wBase " x" "x  " (by decide)

/-- A concrete environment whose state file holds valid JSON that is
not an object. -/
def envBadState : Env :=
  { suppressMarineEnv := none, tgLevelsEnv := none,
    stateContent := .parsed (.arr []), historyKeys := [],
    fetch1 := .ok (.obj []), fetch2 := .ok (.obj []), fetch3 := .ok (.obj []),
    emailConfigured := false, smtpResult := .ok (), tgConfigured := false,
    tgPost := fun _ => .ok 200, now := "T1", now2 := "T2" }

/-- C8 counterexample: a state file containing the valid JSON `[]` is
returned as-is by `load_state`, and the run then crashes with
`AttributeError` at `state.get("seen")` — before fetching, without
saving anything — contradicting "loading persisted state never fails
the run ... valid JSON of the wrong type ... normalized rather than
crashing". -/
theorem stateLoad_claim_cex :
    envBadState.stateContent = .parsed (.arr []) ∧
    runMain envBadState = ⟨some .attributeError, [], false, [], none⟩ :=
  ⟨rfl, rfl⟩

/-- C8 (amended): a missing, unreadable or JSON-malformed state file
yields the default empty record; any state file holding a JSON object
— whatever keys or value types it has — yields a normalized `seen`
map without failing; and every saved state blob has the canonical
shape with a dict under `"seen"` and a string under `"last_run_utc"`.
Only a valid non-object JSON state value crashes the run. -/
theorem stateLoad_amended :
    (∀ c : StateFileContent,
      (c = .missing ∨ c = .unreadable ∨ c = .malformed) →
      seenFromState (load_state c) = .ok []) ∧
    (∀ kvs : List (String × Json),
      ∃ m, seenFromState (load_state (.parsed (.obj kvs))) = .ok m) ∧
    (∀ (kvs : List (String × Json)) (seen : List (String × Json))
        (now2 : String),
      ∃ kvs', saveStateJson (.obj kvs) seen now2 = .obj kvs' ∧
        jlookup kvs' "seen" = some (.obj seen) ∧
        jlookup kvs' "last_run_utc" = some (.str now2)) := by
  refine ⟨by rintro c (rfl | rfl | rfl) <;> rfl, fun kvs => ?_, fun kvs seen now2 => ?_⟩
  · cases h : jlookup kvs "seen" with
    | none => exact ⟨[], by simp [load_state, seenFromState, h]⟩
    | some v =>
      cases v with
      | obj s => exact ⟨s, by simp [load_state, seenFromState, h]⟩
      | null => exact ⟨[], by simp [load_state, seenFromState, h]⟩
      | bool b => exact ⟨[], by simp [load_state, seenFromState, h]⟩
      | num n => exact ⟨[], by simp [load_state, seenFromState, h]⟩
      | str s => exact ⟨[], by simp [load_state, seenFromState, h]⟩
      | arr xs => exact ⟨[], by simp [load_state, seenFromState, h]⟩
  · refine ⟨jset (jset kvs "seen" (.obj seen)) "last_run_utc" (.str now2),
      rfl, ?_, jlookup_jset_self ..⟩
    rw [jlookup_jset_other _ _ _ _ (by decide)]
    exact jlookup_jset_self ..

theorem stateLoad_amended_witness :
    seenFromState (load_state .malformed) = .ok [] :=
  stateLoad_amended.1 .malformed (by simp)

/-- The history accumulator only grows: the rows collected before a
loop segment are a prefix of its output, and the newly collected rows
are a sublist of the processed warnings (feed order, nothing dropped
or reordered). -/
theorem mainLoop_historyAdd_append (ws : List Warning) :
    ∀ (seen : List (String × Json)) (hk : List HKey) (c h : List Warning),
    ∃ t, (mainLoop seen hk c h ws).historyAdd = h ++ t ∧ t.Sublist ws := by
  induction ws with
  | nil =>
    intro seen hk c h
    exact ⟨[], by simp [mainLoop], List.nil_sublist _⟩
  | cons w ws ih =>
    intro seen hk c h
    by_cases hq : hkey w ∈ hk
    · cases hs : storedEq (jlookup seen w.identifier) (fingerprint w)
      · obtain ⟨t, ht, hsub⟩ :=
          ih (jset seen w.identifier (encodeFp (fingerprint w))) hk (c ++ [w]) h
        exact ⟨t, by simpa [mainLoop, hs, hq] using ht, hsub.cons w⟩
      · obtain ⟨t, ht, hsub⟩ := ih seen hk c h
        exact ⟨t, by simpa [mainLoop, hs, hq] using ht, hsub.cons w⟩
    · cases hs : storedEq (jlookup seen w.identifier) (fingerprint w)
      · obtain ⟨t, ht, hsub⟩ :=
          ih (jset seen w.identifier (encodeFp (fingerprint w)))
            (hkey w :: hk) (c ++ [w]) (h ++ [w])
        refine ⟨w :: t, ?_, hsub.cons₂ w⟩
        simpa [mainLoop, hs, hq, List.append_assoc] using ht
      · obtain ⟨t, ht, hsub⟩ := ih seen (hkey w :: hk) c (h ++ [w])
        refine ⟨w :: t, ?_, hsub.cons₂ w⟩
        simpa [mainLoop, hs, hq, List.append_assoc] using ht

/-- Every row the loop has collected either was already collected
before, or its dedup key was absent from the key set at that point. -/
theorem mainLoop_historyAdd_fresh (ws : List Warning) :
    ∀ (seen : List (String × Json)) (hk : List HKey) (c h : List Warning)
      (w : Warning), w ∈ (mainLoop seen hk c h ws).historyAdd →
      w ∈ h ∨ hkey w ∉ hk := by
  induction ws with
  | nil =>
    intro seen hk c h w hw
    exact Or.inl (by simpa [mainLoop] using hw)
  | cons w' ws ih =>
    intro seen hk c h w hw
    by_cases hq : hkey w' ∈ hk
    · cases hs : storedEq (jlookup seen w'.identifier) (fingerprint w') <;>
      · rw [mainLoop] at hw
        simp only [hs, hq] at hw
        exact ih _ _ _ _ w hw
    · cases hs : storedEq (jlookup seen w'.identifier) (fingerprint w') <;>
      · rw [mainLoop] at hw
        simp only [hs, hq] at hw
        rcases (by simpa using ih _ _ _ _ w hw :
            w ∈ h ++ [w'] ∨ hkey w ∉ hkey w' :: hk) with hmem | hnot
        · rcases List.mem_append.mp hmem with hh | hw'
          · exact Or.inl hh
          · simp at hw'
            subst hw'
            exact Or.inr hq
        · exact Or.inr fun hc => hnot (List.mem_cons_of_mem _ hc)

/-- The key set only grows during the loop. -/
theorem mainLoop_keys_mono (ws : List Warning) :
    ∀ (seen : List (String × Json)) (hk : List HKey) (c h : List Warning)
      (k : HKey), k ∈ hk → k ∈ (mainLoop seen hk c h ws).historyKeys := by
  induction ws with
  | nil =>
    intro seen hk c h k hks
    simpa [mainLoop] using hks
  | cons w ws ih =>
    intro seen hk c h k hks
    by_cases hq : hkey w ∈ hk <;>
      cases hs : storedEq (jlookup seen w.identifier) (fingerprint w) <;>
      · rw [mainLoop]
        simp only [hs, hq]
        first
          | exact ih _ _ _ _ k hks
          | exact ih _ _ _ _ k (List.mem_cons_of_mem _ hks)

/-- After the loop, the key set contains the dedup key of every
processed warning. -/
theorem mainLoop_keys_cover (ws : List Warning) :
    ∀ (seen : List (String × Json)) (hk : List HKey) (c h : List Warning)
      (w : Warning), w ∈ ws →
      hkey w ∈ (mainLoop seen hk c h ws).historyKeys := by
  induction ws with
  | nil => intro seen hk c h w hw; cases hw
  | cons w' ws ih =>
    intro seen hk c h w hw
    rcases List.mem_cons.mp hw with rfl | hw'
    · by_cases hq : hkey w ∈ hk <;>
        cases hs : storedEq (jlookup seen w.identifier) (fingerprint w) <;>
        · rw [mainLoop]
          simp only [hs, hq]
          first
            | exact mainLoop_keys_mono ws _ _ _ _ _ hq
            | exact mainLoop_keys_mono ws _ _ _ _ _ (List.mem_cons_self _ _)
    · by_cases hq : hkey w' ∈ hk <;>
        cases hs : storedEq (jlookup seen w'.identifier) (fingerprint w') <;>
        · rw [mainLoop]
          simp only [hs, hq]
          exact ih _ _ _ _ w hw'

/-- The dedup key of every processed warning was either present at loop
start or belongs to some collected row. -/
theorem mainLoop_key_origin (ws : List Warning) :
    ∀ (seen : List (String × Json)) (hk : List HKey) (c h : List Warning)
      (w : Warning), w ∈ ws →
      hkey w ∈ hk ∨
        hkey w ∈ ((mainLoop seen hk c h ws).historyAdd.map hkey) := by
  induction ws with
  | nil => intro seen hk c h w hw; cases hw
  | cons w' ws ih =>
    intro seen hk c h w hw
    by_cases hq : hkey w' ∈ hk
    · rcases List.mem_cons.mp hw with rfl | hw'
      · exact Or.inl hq
      · cases hs : storedEq (jlookup seen w'.identifier) (fingerprint w') <;>
        · rw [mainLoop]
          simp only [hs, hq]
          exact ih _ _ _ _ w hw'
    · -- w' is collected; any later warning with the same key points at it
      have hcollect : ∀ (seen' : List (String × Json)) (c' : List Warning),
          w' ∈ (mainLoop seen' (hkey w' :: hk) c' (h ++ [w']) ws).historyAdd := by
        intro seen' c'
        obtain ⟨t, ht, -⟩ := mainLoop_historyAdd_append ws seen' _ c' (h ++ [w'])
        rw [ht]
        exact List.mem_append.mpr (Or.inl (List.mem_append.mpr (Or.inr (by simp))))
      rcases List.mem_cons.mp hw with rfl | hw'
      · cases hs : storedEq (jlookup seen w.identifier) (fingerprint w) <;>
        · rw [mainLoop]
          simp only [hs, hq]
          exact Or.inr (List.mem_map.mpr ⟨w, hcollect _ _, rfl⟩)
      · cases hs : storedEq (jlookup seen w'.identifier) (fingerprint w') <;>
        · rw [mainLoop]
          simp only [hs, hq]
          rcases ih _ (hkey w' :: hk) _ (h ++ [w']) w hw' with hin | hadd
          · rcases List.mem_cons.mp hin with heq | hin'
            · exact Or.inr (List.mem_map.mpr ⟨w', hcollect _ _, heq.symm⟩)
            · exact Or.inl hin'
          · exact Or.inr hadd

/-- The collected rows have pairwise-distinct dedup keys, provided the
already-collected rows do and their keys are all in the key set. -/
theorem mainLoop_historyAdd_nodup (ws : List Warning) :
    ∀ (seen : List (String × Json)) (hk : List HKey) (c h : List Warning),
      (h.map hkey).Nodup → (∀ w ∈ h, hkey w ∈ hk) →
      (((mainLoop seen hk c h ws).historyAdd.map hkey)).Nodup := by
  induction ws with
  | nil =>
    intro seen hk c h hnd hsub
    simpa [mainLoop] using hnd
  | cons w ws ih =>
    intro seen hk c h hnd hsub
    by_cases hq : hkey w ∈ hk
    · cases hs : storedEq (jlookup seen w.identifier) (fingerprint w) <;>
      · rw [mainLoop]
        simp only [hs, hq]
        exact ih _ _ _ _ hnd hsub
    · have hfresh : hkey w ∉ h.map hkey := by
        intro hc
        obtain ⟨w'', hw'', hk''⟩ := List.mem_map.mp hc
        exact hq (hk'' ▸ hsub w'' hw'')
      have hnd' : ((h ++ [w]).map hkey).Nodup := by
        rw [List.map_append]
        refine List.Nodup.append hnd (by simp) ?_
        intro a ha hb
        simp at hb
        subst hb
        exact hfresh ha
      have hsub' : ∀ w' ∈ h ++ [w], hkey w' ∈ hkey w :: hk := by
        intro w' hw'
        rcases List.mem_append.mp hw' with hh | hw
        · exact List.mem_cons_of_mem _ (hsub w' hh)
        · simp at hw
          subst hw
          exact List.mem_cons_self _ _
      cases hs : storedEq (jlookup seen w.identifier) (fingerprint w) <;>
      · rw [mainLoop]
        simp only [hs, hq]
        exact ih _ _ _ _ hnd' hsub'

/-- First of two same-run warnings sharing one history dedup key. -/
def wDup1 : Warning :=
  { timestamp_utc := "T1", identifier := "dup-1", level := "YELLOW",
    hazard := "vējš", event := "E", areas := "Kurzeme", onset := "O",
    expires := "X", description := "first text", source := "s" }

/-- Second sighting: same dedup key, different description. -/
def wDup2 : Warning :=
  { wDup1 with timestamp_utc := "T2", description := "second text" }

/-- C7 counterexample: with an empty history file, processing two
warnings that share a dedup key appends only the first; the second
warning's key is not among the start-of-run keys, yet the warning is
not appended — the claim's "appended if and only if its dedup key is
not already among the keys read at the start of the run" fails. -/
theorem history_dedup_claim_cex :
    hkey wDup2 = hkey wDup1 ∧ wDup2 ≠ wDup1 ∧
    hkey wDup2 ∉ ([] : List HKey) ∧
    (mainLoop [] [] [] [] [wDup1, wDup2]).historyAdd = [wDup1] ∧
    wDup2 ∉ (mainLoop [] [] [] [] [wDup1, wDup2]).historyAdd := by
  decide

/-- C7 (amended): in one run the history store appends a warning iff
its dedup key is absent from the keys read at the start of the run
*and* it is the first warning of the run carrying that key.  Hence:
every appended row's key was new, appended keys are pairwise distinct
(at most one row per key is added, preserving the at-most-one-per-key
invariant), the appended rows are a sublist of the feed (purely
additive, existing rows untouched), and every processed warning whose
key was new is represented by exactly one appended row with that key. -/
theorem history_dedup_amended (ws : List Warning)
    (seen : List (String × Json)) (ks : List HKey) :
    (∀ w ∈ (mainLoop seen ks [] [] ws).historyAdd, hkey w ∉ ks) ∧
    ((mainLoop seen ks [] [] ws).historyAdd.map hkey).Nodup ∧
    (mainLoop seen ks [] [] ws).historyAdd.Sublist ws ∧
    (∀ w ∈ ws, hkey w ∉ ks →
      ∃ w' ∈ (mainLoop seen ks [] [] ws).historyAdd, hkey w' = hkey w) := by
  refine ⟨?_, ?_, ?_, ?_⟩
  · intro w hw
    rcases mainLoop_historyAdd_fresh ws seen ks [] [] w hw with h | h
    · cases h
    · exact h
  · exact mainLoop_historyAdd_nodup ws seen ks [] [] (by simp) (by simp)
  · obtain ⟨t, ht, hsub⟩ := mainLoop_historyAdd_append ws seen ks [] []
    simpa [ht] using hsub
  · intro w hw hnot
    rcases mainLoop_key_origin ws seen ks [] [] w hw with h | h
    · exact absurd h hnot
    · obtain ⟨w', hw', he⟩ := List.mem_map.mp h
      exact ⟨w', hw', he⟩

theorem history_dedup_amended_witness :
    ∃ w' ∈ (mainLoop [] [] [] [] [wDup1, wDup2]).historyAdd,
      hkey w' = hkey wDup1 :=
  (history_dedup_amended [wDup1, wDup2] [] []).2.2.2 wDup1 (by decide)
    (by decide)

/-- A concrete ORANGE changed warning for the routing claim. -/
def wDigest : Warning :=
  { timestamp_utc := "T1", identifier := "route-1", level := "ORANGE",
    hazard := "lietus", event := "Heavy rain", areas := "Latgale",
    onset := "O", expires := "X", description := "d", source := "s" }

/-- A concrete environment whose feed object binds none of the
candidate keys to a list. -/
def envFlatFeed : Env :=
  { suppressMarineEnv := none, tgLevelsEnv := none,
    stateContent := .missing, historyKeys := [],
    fetch1 := .ok (.obj [("warnings", .str "oops")]),
    fetch2 := .ok (.obj [("warnings", .str "oops")]),
    fetch3 := .ok (.obj [("warnings", .str "oops")]),
    emailConfigured := false, smtpResult := .ok (), tgConfigured := false,
    tgPost := fun _ => .ok 200, now := "T1", now2 := "T2" }

/-- When the Telegram channel is configured and every post returns a
status code (whatever its value), the escalation loop invokes one send
per changed warning whose uppercased level is in the allow-set, and no
exception escapes. -/
theorem tgLoop_ok (post : Nat → Except NetErr Nat)
    (hpost : ∀ n, ∃ code, post n = .ok code) (lvls : List String) :
    ∀ (ws : List Warning) (n : Nat),
      (tgLoop true post lvls ws n).1 =
        ws.filter (fun w => decide (pyUpper w.level ∈ lvls)) ∧
      (tgLoop true post lvls ws n).2.2 = none := by
  intro ws
  induction ws with
  | nil => intro n; simp [tgLoop]
  | cons w ws ih =>
    intro n
    by_cases hl : pyUpper w.level ∈ lvls
    · obtain ⟨code, hc⟩ := hpost n
      obtain ⟨h1, h2⟩ := ih (n + 1)
      rw [tgLoop]
      simp [hl, hc, List.filter_cons, h1, h2]
    · obtain ⟨h1, h2⟩ := ih n
      rw [tgLoop]
      simp [hl, List.filter_cons, h1, h2]

/-- Whatever the configuration, the escalation loop raises nothing as
long as every attempted post returns a status code. -/
theorem tgLoop_err_none (cfg : Bool) (post : Nat → Except NetErr Nat)
    (hpost : ∀ n, ∃ code, post n = .ok code) (lvls : List String) :
    ∀ (ws : List Warning) (n : Nat),
      (tgLoop cfg post lvls ws n).2.2 = none := by
  intro ws
  induction ws with
  | nil => intro n; simp [tgLoop]
  | cons w ws ih =>
    intro n
    by_cases hl : pyUpper w.level ∈ lvls
    · cases cfg with
      | true =>
        obtain ⟨code, hc⟩ := hpost n
        rw [tgLoop]
        simp [hl, hc, ih (n + 1)]
      | false =>
        rw [tgLoop]
        simp [hl, ih n]
    · rw [tgLoop]
      simp [hl, ih n]

/-- C9: with the default allow-set (`TG_LEVELS` unset, parsed from
`"ORANGE,RED"`), every changed warning is rendered in the grouped
digest; a YELLOW one never triggers an escalation send, while an
ORANGE one triggers exactly one escalation send (Telegram configured,
posts answering with status codes). -/
theorem severityRouting (changed : List Warning)
    (post : Nat → Except NetErr Nat)
    (hpost : ∀ n, ∃ code, post n = .ok code) (w : Warning)
    (hw : changed.count w = 1) :
    (w.level = "YELLOW" →
      w ∈ changedSorted changed ∧
      w ∉ (tgLoop true post
        (parseTgLevels ((none : Option String).getD "ORANGE,RED"))
        changed 0).1) ∧
    (w.level = "ORANGE" →
      w ∈ changedSorted changed ∧
      (tgLoop true post
        (parseTgLevels ((none : Option String).getD "ORANGE,RED"))
        changed 0).1.count w = 1) := by
  have hmem : w ∈ changed := by
    have : 0 < changed.count w := by omega
    exact List.count_pos_iff.mp this
  have hsorted : w ∈ changedSorted changed := by
    unfold changedSorted
    exact (List.mergeSort_perm changed digestLe).mem_iff.mpr hmem
  have hcalls := (tgLoop_ok post hpost
    (parseTgLevels ((none : Option String).getD "ORANGE,RED")) changed 0).1
  constructor
  · intro hY
    refine ⟨hsorted, ?_⟩
    rw [hcalls]
    intro hc
    have h2 := (List.mem_filter.mp hc).2
    rw [hY] at h2
    exact absurd (of_decide_eq_true h2) (by decide)
  · intro hO
    refine ⟨hsorted, ?_⟩
    rw [hcalls, List.count_filter]
    · simpa using hw
    · rw [hO]
      decide

theorem severityRouting_witness :
    wDigest ∈ changedSorted [wDigest] ∧
    (tgLoop true (fun _ => .ok 200)
      (parseTgLevels ((none : Option String).getD "ORANGE,RED"))
      [wDigest] 0).1.count wDigest = 1 :=
  (severityRouting [wDigest] (fun _ => .ok 200) (fun _ => ⟨200, rfl⟩)
    wDigest (by decide)).2 rfl

/-- C10: on a feed object in which none of `warnings`, `data`,
`alerts`, `items` is bound to a list and `result.warnings` is not a
list either, normalization returns the empty warning list, and the run
completes normally with no history rows, no notifications, and the
unchanged `seen` map saved. -/
theorem emptyFeed_normalization (env : Env)
    (seen0 : List (String × Json)) (feed : Json)
    (hseen : seenFromState (load_state env.stateContent) = .ok seen0)
    (hfetch : fetch_feed_with_retries [env.fetch1, env.fetch2, env.fetch3] =
      .ok feed)
    (hkeys : ∀ k ∈ (["warnings", "data", "alerts", "items"] : List String),
      asList (jget feed k) = none)
    (hres : asList (safe_get feed ["result", "warnings"]) = none) :
    extract_warnings env.now feed = [] ∧
    runMain env = ⟨none, [], false, [],
      some (saveStateJson (load_state env.stateContent) seen0 env.now2)⟩ := by
  have hcand : extractCandidates feed = [] := by
    unfold extractCandidates
    rw [hkeys "warnings" (by simp), hkeys "data" (by simp),
      hkeys "alerts" (by simp), hkeys "items" (by simp), hres]
    rfl
  have hext : extract_warnings env.now feed = [] := by
    simp [extract_warnings, hcand]
  refine ⟨hext, ?_⟩
  simp only [runMain]
  rw [hseen, hfetch]
  simp [hext, filterLoop, mainLoop]

theorem emptyFeed_normalization_witness :
    extract_warnings "T1" (.obj [("warnings", .str "oops")]) = [] ∧
    runMain envFlatFeed = ⟨none, [], false, [],
      some (saveStateJson (load_state envFlatFeed.stateContent) [] "T2")⟩ :=
  emptyFeed_normalization envFlatFeed [] (.obj [("warnings", .str "oops")])
    rfl rfl
    (by intro k hk; simp only [List.mem_cons, List.not_mem_nil, or_false] at hk
        rcases hk with rfl | rfl | rfl | rfl <;> rfl)
    rfl

/-- A feed whose normalization yields two ORANGE warnings. -/
def feedTwo : Json := .obj [("warnings", .arr [
  .obj [("identifier", .str "w1"), ("level", .str "orange")],
  .obj [("identifier", .str "w2"), ("level", .str "orange")]])]

/-- The first warning `feedTwo` normalizes to. -/
def wTg1 : Warning :=
  { timestamp_utc := "T1", identifier := "w1", level := "ORANGE",
    hazard := "", event := "", areas := "", onset := "", expires := "",
    description := "", source := FEED_URL }

/-- The second warning `feedTwo` normalizes to. -/
def wTg2 : Warning := { wTg1 with identifier := "w2" }

/-- Environment in which the first Telegram post raises a transport
error (connection failure), with everything else healthy. -/
def envTgFail : Env :=
  { suppressMarineEnv := none, tgLevelsEnv := none,
    stateContent := .missing, historyKeys := [],
    fetch1 := .ok feedTwo, fetch2 := .ok feedTwo, fetch3 := .ok feedTwo,
    emailConfigured := true, smtpResult := .ok (), tgConfigured := true,
    tgPost := fun n => if n = 0 then .error .connection else .ok 200,
    now := "T1", now2 := "T2" }

/-- C6 counterexample: both changed warnings are escalation-eligible,
but when the first Telegram post raises a transport-level error the
exception escapes `main`: the second escalation is never attempted
(`tgCalls = [wTg1]`), and the final state save does not happen
(`savedState = none`) — the claim's "a transport-level error ... is
caught and logged, and does not abort the run" is false. -/
theorem telegramFailure_claim_cex :
    pyUpper wTg2.level ∈
      parseTgLevels ((none : Option String).getD "ORANGE,RED") ∧
    runMain envTgFail =
      ⟨some (.transport .connection), [wTg1, wTg2], true, [wTg1], none⟩ :=
  ⟨by decide, rfl⟩

/-- C6 (amended): only a non-2xx HTTP status is handled inside
`telegram_send` (logged, not raised): if every post returns a status
code — whatever its value — and the digest step succeeds or is
skipped, the run completes normally and the state save happens.  A
transport-level exception from a post instead aborts the run, skipping
the remaining escalations and the state save (the digest and history
append, which come earlier, are unaffected). -/
theorem telegramFailure_amended (env : Env)
    (seen0 : List (String × Json)) (feed : Json)
    (hseen : seenFromState (load_state env.stateContent) = .ok seen0)
    (hfetch : fetch_feed_with_retries [env.fetch1, env.fetch2, env.fetch3] =
      .ok feed)
    (hemail : env.emailConfigured = false ∨ env.smtpResult = .ok ())
    (hpost : ∀ n, ∃ code, env.tgPost n = .ok code) :
    (runMain env).error = none ∧ (runMain env).savedState.isSome = true := by
  have hmail : ∃ sent, send_email env.emailConfigured env.smtpResult = .ok sent := by
    rcases hemail with he | he
    · exact ⟨false, by simp [send_email, he]⟩
    · cases hc : env.emailConfigured
      · exact ⟨false, by simp [send_email]⟩
      · exact ⟨true, by simp [send_email, he]⟩
  obtain ⟨sent, hm⟩ := hmail
  rcases hres : tgLoop env.tgConfigured env.tgPost
      (parseTgLevels (env.tgLevelsEnv.getD "ORANGE,RED"))
      (mainLoop seen0 env.historyKeys [] []
        (filterLoop (suppressFlag env.suppressMarineEnv) []
          (extract_warnings env.now feed))).changed 0 with ⟨calls, n', err⟩
  have herr : err = none := by
    have h := tgLoop_err_none env.tgConfigured env.tgPost hpost
      (parseTgLevels (env.tgLevelsEnv.getD "ORANGE,RED"))
      (mainLoop seen0 env.historyKeys [] []
        (filterLoop (suppressFlag env.suppressMarineEnv) []
          (extract_warnings env.now feed))).changed 0
    rw [hres] at h
    exact h
  subst herr
  simp only [runMain]
  rw [hseen, hfetch]
  by_cases hch : (mainLoop seen0 env.historyKeys [] []
      (filterLoop (suppressFlag env.suppressMarineEnv) []
        (extract_warnings env.now feed))).changed.isEmpty
  · simp [hch]
  · simp [hch, hm, hres]

/-- A feed normalizing to a single ORANGE warning. -/
def feedOne : Json := .obj [("warnings", .arr [
  .obj [("identifier", .str "w1"), ("level", .str "orange")]])]

/-- Environment in which the only Telegram post answers with the
non-2xx status 500. -/
def envTgStatus : Env :=
  { suppressMarineEnv := none, tgLevelsEnv := none,
    stateContent := .missing, historyKeys := [],
    fetch1 := .ok feedOne, fetch2 := .ok feedOne, fetch3 := .ok feedOne,
    emailConfigured := false, smtpResult := .ok (), tgConfigured := true,
    tgPost := fun _ => .ok 500, now := "T1", now2 := "T2" }

theorem telegramFailure_amended_witness :
    (runMain envTgStatus).error = none ∧
    (runMain envTgStatus).savedState.isSome = true :=
  telegramFailure_amended envTgStatus [] feedOne rfl rfl (Or.inl rfl)
    (fun _ => ⟨500, rfl⟩)

/-- Replace the ingestion timestamp (the only run-dependent field of a
normalized warning). -/
def retime (t : String) (w : Warning) : Warning := { w with timestamp_utc := t }

theorem extractItem_retime (t t' : String) (item : Json) :
    extractItem t item = (extractItem t' item).map (retime t) := by
  cases item <;> rfl

/-- Two extractions of the same feed differ only in the stamped
ingestion time. -/
theorem extract_retime (t t' : String) (feed : Json) :
    extract_warnings t feed = (extract_warnings t' feed).map (retime t) := by
  simp only [extract_warnings, List.map_filterMap]
  congr 1
  funext item
  exact extractItem_retime t t' item

/-- The marine filter commutes with retiming (it reads only hazard,
event and areas). -/
theorem filterLoop_retime (s : Bool) (t : String) (ws : List Warning) :
    filterLoop s [] (ws.map (retime t)) = (filterLoop s [] ws).map (retime t) := by
  rw [filterLoop_eq_filter, filterLoop_eq_filter, List.nil_append,
    List.nil_append, List.filter_map]
  rfl

/-- When every warning's fingerprint already matches the `seen` map and
every dedup key is already known, the loop is a no-op. -/
theorem mainLoop_stable (ws : List Warning) :
    ∀ (seen : List (String × Json)) (hk : List HKey) (c h : List Warning),
      (∀ w ∈ ws, storedEq (jlookup seen w.identifier) (fingerprint w) = true) →
      (∀ w ∈ ws, hkey w ∈ hk) →
      mainLoop seen hk c h ws = ⟨c, seen, h, hk⟩ := by
  induction ws with
  | nil => intro seen hk c h _ _; rfl
  | cons w ws ih =>
    intro seen hk c h hall hkeys
    rw [mainLoop]
    simp only [hall w (List.mem_cons_self _ _), if_true,
      hkeys w (List.mem_cons_self _ _), if_pos]
    exact ih seen hk c h (fun w' hw' => hall w' (List.mem_cons_of_mem _ hw'))
      (fun w' hw' => hkeys w' (List.mem_cons_of_mem _ hw'))

/-- Keys not belonging to any processed warning keep their `seen`
entry. -/
theorem mainLoop_seen_other (ws : List Warning) :
    ∀ (seen : List (String × Json)) (hk : List HKey) (c h : List Warning)
      (k : String), (∀ w ∈ ws, w.identifier ≠ k) →
      jlookup (mainLoop seen hk c h ws).seen k = jlookup seen k := by
  induction ws with
  | nil => intro seen hk c h k _; rfl
  | cons w ws ih =>
    intro seen hk c h k hne
    have hrest : ∀ w' ∈ ws, w'.identifier ≠ k :=
      fun w' hw' => hne w' (List.mem_cons_of_mem _ hw')
    by_cases hq : hkey w ∈ hk <;>
      cases hs : storedEq (jlookup seen w.identifier) (fingerprint w) <;>
      · rw [mainLoop]
        simp only [hs, hq]
        rw [ih _ _ _ _ k hrest]
        first
          | rfl
          | exact jlookup_jset_other seen k w.identifier _
              (hne w (List.mem_cons_self _ _))

/-- After the loop, when identifiers are pairwise distinct, the `seen`
map holds exactly each processed warning's fingerprint. -/
theorem mainLoop_seen_lookup (ws : List Warning)
    (hnd : (ws.map Warning.identifier).Nodup) :
    ∀ (seen : List (String × Json)) (hk : List HKey) (c h : List Warning)
      (w : Warning), w ∈ ws →
      storedEq (jlookup (mainLoop seen hk c h ws).seen w.identifier)
        (fingerprint w) = true := by
  induction ws with
  | nil => intro seen hk c h w hw; cases hw
  | cons w' ws ih =>
    intro seen hk c h w hw
    have hnd' : (ws.map Warning.identifier).Nodup := (List.nodup_cons.mp hnd).2
    rcases List.mem_cons.mp hw with rfl | hw'
    · have hrest : ∀ w'' ∈ ws, w''.identifier ≠ w.identifier := by
        intro w'' hw'' he
        exact (List.nodup_cons.mp hnd).1 (he ▸ List.mem_map_of_mem _ hw'')
      cases hs : storedEq (jlookup seen w.identifier) (fingerprint w)
      · by_cases hq : hkey w ∈ hk <;>
        · rw [mainLoop]
          simp only [hs, hq, Bool.false_eq_true, if_false, if_true, if_neg,
            not_false_eq_true, ite_false]
          rw [mainLoop_seen_other ws _ _ _ _ _ hrest, jlookup_jset_self]
          exact (storedEq_encode (fingerprint w) (fingerprint w)).mpr rfl
      · by_cases hq : hkey w ∈ hk <;>
        · rw [mainLoop]
          simp only [hs, hq, eq_self_iff_true, if_true, ite_true]
          rw [mainLoop_seen_other ws _ _ _ _ _ hrest]
          exact hs
    · by_cases hq : hkey w' ∈ hk <;>
        cases hs : storedEq (jlookup seen w'.identifier) (fingerprint w') <;>
        · rw [mainLoop]
          simp only [hs, hq]
          exact ih hnd' _ _ _ _ w hw'

/-- C5 (amended): provided the filtered feed's identifiers are
pairwise distinct, a second run over the same feed, starting from the
state saved by a completed first run and a history file containing the
first run's rows, is a no-op: it completes normally, appends no
history rows, sends no digest, invokes no escalation, and saves a
state blob identical to the first run's except for the `last_run_utc`
value. -/
theorem idempotence_amended (env1 env2 : Env) (feed st1 : Json)
    (seen0 : List (String × Json))
    (hseen1 : seenFromState (load_state env1.stateContent) = .ok seen0)
    (hfetch1 : fetch_feed_with_retries [env1.fetch1, env1.fetch2, env1.fetch3] =
      .ok feed)
    (hfetch2 : fetch_feed_with_retries [env2.fetch1, env2.fetch2, env2.fetch3] =
      .ok feed)
    (hsup : env2.suppressMarineEnv = env1.suppressMarineEnv)
    (hsave : (runMain env1).savedState = some st1)
    (hstate2 : env2.stateContent = .parsed st1)
    (hk1 : ∀ k ∈ env1.historyKeys, k ∈ env2.historyKeys)
    (hk2 : ∀ w ∈ (runMain env1).historyAppended, hkey w ∈ env2.historyKeys)
    (hnd : ((filterLoop (suppressFlag env1.suppressMarineEnv) []
      (extract_warnings env1.now feed)).map Warning.identifier).Nodup) :
    runMain env2 = ⟨none, [], false, [],
      some (jsetJ st1 "last_run_utc" (.str env2.now2))⟩ := by
  -- the state loaded by run 1 is an object (otherwise run 1 crashed)
  have hobj : ∃ kvs0, load_state env1.stateContent = .obj kvs0 := by
    cases hst : load_state env1.stateContent
    case obj kvs => exact ⟨kvs, rfl⟩
    all_goals rw [hst] at hseen1
    all_goals simp [seenFromState] at hseen1
  obtain ⟨kvs0, hkvs0⟩ := hobj
  -- run 1 completed, so its saved blob and appended rows are the loop's
  have hcases : ((runMain env1).savedState = none) ∨
      ((runMain env1).savedState =
        some (saveStateJson (load_state env1.stateContent)
          (mainLoop seen0 env1.historyKeys [] []
            (filterLoop (suppressFlag env1.suppressMarineEnv) []
              (extract_warnings env1.now feed))).seen env1.now2) ∧
       (runMain env1).historyAppended =
        (mainLoop seen0 env1.historyKeys [] []
          (filterLoop (suppressFlag env1.suppressMarineEnv) []
            (extract_warnings env1.now feed))).historyAdd) := by
    simp only [runMain]
    rw [hseen1, hfetch1]
    by_cases hch : (mainLoop seen0 env1.historyKeys [] []
        (filterLoop (suppressFlag env1.suppressMarineEnv) []
          (extract_warnings env1.now feed))).changed.isEmpty
    · right
      constructor <;> simp [hch]
    · rcases hse : send_email env1.emailConfigured env1.smtpResult with e | sent
      · left
        simp [hch, hse]
      · rcases htg : tgLoop env1.tgConfigured env1.tgPost
            (parseTgLevels (env1.tgLevelsEnv.getD "ORANGE,RED"))
            (mainLoop seen0 env1.historyKeys [] []
              (filterLoop (suppressFlag env1.suppressMarineEnv) []
                (extract_warnings env1.now feed))).changed 0 with ⟨calls, n', err⟩
        cases err
        · right
          constructor <;> simp [hch, hse, htg]
        · left
          simp [hch, hse, htg]
  rcases hcases with hnone | ⟨hsome, hhist⟩
  · rw [hnone] at hsave
    cases hsave
  have hst1 : st1 = saveStateJson (load_state env1.stateContent)
      (mainLoop seen0 env1.historyKeys [] []
        (filterLoop (suppressFlag env1.suppressMarineEnv) []
          (extract_warnings env1.now feed))).seen env1.now2 := by
    rw [hsave] at hsome
    exact Option.some.inj hsome
  -- the saved blob's "seen" entry
  have hlook : jlookup (jset (jset kvs0 "seen"
        (.obj (mainLoop seen0 env1.historyKeys [] []
          (filterLoop (suppressFlag env1.suppressMarineEnv) []
            (extract_warnings env1.now feed))).seen)) "last_run_utc"
        (.str env1.now2)) "seen" =
      some (.obj (mainLoop seen0 env1.historyKeys [] []
        (filterLoop (suppressFlag env1.suppressMarineEnv) []
          (extract_warnings env1.now feed))).seen) := by
    rw [jlookup_jset_other _ _ _ _
      (by decide : ("last_run_utc" : String) ≠ "seen")]
    exact jlookup_jset_self ..
  have hseen2 : seenFromState (load_state env2.stateContent) =
      .ok (mainLoop seen0 env1.historyKeys [] []
        (filterLoop (suppressFlag env1.suppressMarineEnv) []
          (extract_warnings env1.now feed))).seen := by
    rw [hstate2]
    show seenFromState st1 = _
    rw [hst1, hkvs0]
    simp only [saveStateJson, jsetJ, seenFromState, hlook]
  -- every second-run warning already matches the saved map and keys
  have hall2 : ∀ v ∈ (filterLoop (suppressFlag env1.suppressMarineEnv) []
        (extract_warnings env1.now feed)).map (retime env2.now),
      storedEq (jlookup (mainLoop seen0 env1.historyKeys [] []
        (filterLoop (suppressFlag env1.suppressMarineEnv) []
          (extract_warnings env1.now feed))).seen v.identifier)
        (fingerprint v) = true := by
    intro v hv
    obtain ⟨w, hwmem, rfl⟩ := List.mem_map.mp hv
    show storedEq (jlookup _ w.identifier) (fingerprint w) = true
    exact mainLoop_seen_lookup _ hnd seen0 env1.historyKeys [] [] w hwmem
  have hkeys2 : ∀ v ∈ (filterLoop (suppressFlag env1.suppressMarineEnv) []
        (extract_warnings env1.now feed)).map (retime env2.now),
      hkey v ∈ env2.historyKeys := by
    intro v hv
    obtain ⟨w, hwmem, rfl⟩ := List.mem_map.mp hv
    show hkey w ∈ env2.historyKeys
    rcases mainLoop_key_origin _ seen0 env1.historyKeys [] [] w hwmem with hin | hin
    · exact hk1 _ hin
    · obtain ⟨w', hw', he⟩ := List.mem_map.mp hin
      exact he ▸ hk2 w' (hhist ▸ hw')
  have hstable := mainLoop_stable _
    (mainLoop seen0 env1.historyKeys [] []
      (filterLoop (suppressFlag env1.suppressMarineEnv) []
        (extract_warnings env1.now feed))).seen
    env2.historyKeys [] [] hall2 hkeys2
  have hsetseen : jsetJ st1 "seen"
      (.obj (mainLoop seen0 env1.historyKeys [] []
        (filterLoop (suppressFlag env1.suppressMarineEnv) []
          (extract_warnings env1.now feed))).seen) = st1 := by
    rw [hst1, hkvs0]
    simp only [saveStateJson, jsetJ]
    rw [jset_self_of_lookup _ _ _ hlook]
  simp only [runMain]
  rw [hseen2, hfetch2]
  simp [hsup, extract_retime env2.now env1.now feed, filterLoop_retime,
    hstable, hstate2, load_state, saveStateJson, hsetseen]

/-- A feed yielding two warnings with the same identifier but
different descriptions. -/
def feedDup : Json := .obj [("warnings", .arr [
  .obj [("identifier", .str "dup"), ("level", .str "orange"),
        ("description", .str "x")],
  .obj [("identifier", .str "dup"), ("level", .str "orange"),
        ("description", .str "y")]])]

/-- First run over the duplicate-identifier feed (digest configured). -/
def envDup1 : Env :=
  { suppressMarineEnv := none, tgLevelsEnv := none,
    stateContent := .missing, historyKeys := [],
    fetch1 := .ok feedDup, fetch2 := .ok feedDup, fetch3 := .ok feedDup,
    emailConfigured := true, smtpResult := .ok (), tgConfigured := false,
    tgPost := fun _ => .ok 200, now := "T1", now2 := "T2" }

/-- The state blob the first duplicate-feed run saves. -/
def stDup : Json := .obj [("seen", .obj [("dup", .obj
  [("areas", .str ""), ("description", .str "y"), ("event", .str ""),
   ("expires", .str ""), ("hazard", .str ""), ("level", .str "ORANGE"),
   ("onset", .str ""), ("source", .str FEED_URL)])]),
  ("last_run_utc", .str "T2")]

/-- Second run over the same feed, from the first run's state and
history. -/
def envDup2 : Env :=
  { envDup1 with
    stateContent := StateFileContent.parsed stDup,
    historyKeys := [("dup", "ORANGE", "", "", "", "")],
    now := "T3", now2 := "T4" }

/-- C5 counterexample: the feed holds two warnings sharing one
identifier with different descriptions, so the saved fingerprint can
only record the last one; the second run re-detects the first warning
as changed and sends the digest again (`emailSent = true`),
contradicting "the second run produces an empty changed list (so zero
notifications)".  The history and seen-map parts do hold here. -/
theorem idempotence_claim_cex :
    (runMain envDup1).savedState = some stDup ∧
    envDup2.stateContent = .parsed stDup ∧
    (∀ w ∈ (runMain envDup1).historyAppended, hkey w ∈ envDup2.historyKeys) ∧
    ¬ ((filterLoop (suppressFlag envDup1.suppressMarineEnv) []
        (extract_warnings envDup1.now feedDup)).map Warning.identifier).Nodup ∧
    (runMain envDup2).emailSent = true := by
  refine ⟨rfl, rfl, by decide, by decide, rfl⟩

/-- A feed yielding one warning with a unique identifier. -/
def feedC5 : Json := .obj [("warnings", .arr [
  .obj [("identifier", .str "a1"), ("level", .str "yellow"),
        ("description", .str "d")]])]

/-- First run over the single-warning feed. -/
def envRun1 : Env :=
  { suppressMarineEnv := none, tgLevelsEnv := none,
    stateContent := .missing, historyKeys := [],
    fetch1 := .ok feedC5, fetch2 := .ok feedC5, fetch3 := .ok feedC5,
    emailConfigured := false, smtpResult := .ok (), tgConfigured := false,
    tgPost := fun _ => .ok 200, now := "T1", now2 := "T2" }

/-- The state blob the first single-warning run saves. -/
def stRun1 : Json := .obj [("seen", .obj [("a1", .obj
  [("areas", .str ""), ("description", .str "d"), ("event", .str ""),
   ("expires", .str ""), ("hazard", .str ""), ("level", .str "YELLOW"),
   ("onset", .str ""), ("source", .str FEED_URL)])]),
  ("last_run_utc", .str "T2")]

/-- Second run over the same feed, from the first run's state and
history. -/
def envRun2 : Env :=
  { envRun1 with
    stateContent := StateFileContent.parsed stRun1,
    historyKeys := [("a1", "YELLOW", "", "", "", "")],
    now := "T3", now2 := "T4" }

theorem idempotence_amended_witness :
    runMain envRun2 = ⟨none, [], false, [],
      some (jsetJ stRun1 "last_run_utc" (.str "T4"))⟩ :=
  idempotence_amended envRun1 envRun2 feedC5 stRun1 [] rfl rfl rfl rfl rfl
    rfl (by intro k hk; simp [envRun1] at hk) (by decide) (by decide)

end WW
